import Mathlib

/-!
Shallow embedding of the shell command-runner library.

The repository holds two variants of the runner:
- the pipe-based variant (src/unnamed/part_000): options with nopipe, silent
  and an output-transform function; its helper module "./transforms"
  (transformString, setupStdoutStderrStreams) is not part of the sources,
  so those two helpers are modelled from the spec where noted;
- the prefix-based variant (src/src/index.ts): options with a line-prefix
  string and a raw stdio disposition.

Environments are embedded as partial maps from variable names to values
(a missing key is none, mirroring an absent property of a JS object).
The asynchronous runner is embedded as a state machine driven by the list
of events the Node child process delivers (stdout data, stderr data, the
error event, the close event, the timeout callback); the promise is the
result field of the state, settled at most once.
-/

/-- A JS process environment object: keys mapped to values, absent keys are none. -/
abbrev Env := String → Option String

/-- JS object spread: the overlay object wins on keys it holds, the base fills the rest.
Embeds an object literal of the shape (base spread-extended by overlay). -/
def objSpread (base overlay : Env) : Env := fun k =>
  match overlay k with
  | some v => some v
  | none => base k

/-- The single-key object with FORCE_COLOR set to the string 1, the literal
the normalizer starts its spread from. -/
def forceColorEnv : Env := fun k =>
  if k = "FORCE_COLOR" then some "1" else none

/-- Embeds the env computation of the shell entry point (both variants):
the object literal spreading (options.env or parentProcess.env) over the
FORCE_COLOR default. A supplied caller env is used even when empty, since a
JS object is truthy; the parent env is consulted only when no caller env
was supplied. -/
def normalizeEnv (optsEnv : Option Env) (parentEnv : Env) : Env :=
  objSpread forceColorEnv (optsEnv.getD parentEnv)

/-- The environment the claim and the spec sentence describe, written from the
spec words for refinement comparison: the parent environment merged with the
FORCE_COLOR default, with a caller-supplied environment taking precedence
key by key over the inherited one. -/
def claimedMergedEnv (optsEnv : Option Env) (parentEnv : Env) : Env := fun k =>
  match (optsEnv.getD (fun _ => none)) k with
  | some v => some v
  | none =>
    match parentEnv k with
    | some v => some v
    | none => forceColorEnv k

/-- Embeds the JS string split on a one-character separator: the list of
segments between occurrences of the separator, empty segments kept, at least
one segment always produced. -/
def jsSplit (sep : Char) : List Char → List (List Char)
  | [] => [[]]
  | c :: cs =>
    if c = sep then [] :: jsSplit sep cs
    else
      match jsSplit sep cs with
      | [] => [[c]]
      | t :: ts => (c :: t) :: ts

/-- Embeds (message and-then message.split on newline at index 0): the empty
string is falsy and returned as is, otherwise the first split segment. -/
def jsFirstLine (s : String) : String :=
  if s = "" then s else String.mk ((jsSplit '\n' s.data).headD [])

/-- The single error kind of the library; only the message is observable in
the claims (the pipe-based variant also sets a name field). -/
structure ShellError where
  message : String
deriving DecidableEq, Repr

/-- Embeds the ShellError constructor: the supplied message is cut down to
its first line before being stored. -/
def ShellError.ofMessage (message : String) : ShellError :=
  ⟨jsFirstLine message⟩

/-- Embeds the per-chunk transform of prefixTransformStream from
src/src/index.ts: the chunk text with the prefix string and a single space
prepended. The stream applies this to each chunk independently. -/
def prefixTransformStream (p : String) (data : String) : String :=
  p ++ " " ++ data

/-- A standard-stream disposition, both as an entry of the stdio array of the
pipe-based variant and as the string form used by the prefix-based variant. -/
inductive StdioKind
  | pipe
  | ignore
  | inherit
deriving DecidableEq, Repr

/-- Embeds the stdio ternary of the shell entry point of the pipe-based
variant: nopipe and silent select among inherit and ignore, otherwise stdout
and stderr are piped; stdin is the first entry. -/
def stdioFor (nopipe silent : Bool) : List StdioKind :=
  if nopipe then
    if silent then [StdioKind.inherit, StdioKind.ignore, StdioKind.ignore]
    else [StdioKind.inherit, StdioKind.inherit, StdioKind.inherit]
  else [StdioKind.inherit, StdioKind.pipe, StdioKind.pipe]

/-- Caller-supplied options of the pipe-based variant; absent fields are none,
absent boolean flags are false (undefined is falsy). The spawn, execSync and
parentProcess test seams are passed separately in this embedding. -/
structure IShellOptions where
  cwd : Option String := none
  env : Option Env := none
  timeout : Option Nat := none
  async : Bool := false
  nopipe : Bool := false
  silent : Bool := false
  transform : Option (String → String) := none

/-- The fully normalized options the pipe-based entry point hands to the
runners: env and stdio filled in, the remaining fields passed through. -/
structure INormalizedShellOptions where
  cwd : Option String := none
  env : Env := fun _ => none
  stdio : List StdioKind := [StdioKind.inherit, StdioKind.pipe, StdioKind.pipe]
  timeout : Option Nat := none
  async : Bool := false
  nopipe : Bool := false
  silent : Bool := false
  transform : Option (String → String) := none

/-- Embeds the options normalization of the shell entry point of the
pipe-based variant: env defaulted through normalizeEnv, stdio computed from
the nopipe and silent flags, every other field passed through unchanged. -/
def normalizeOptions (o : IShellOptions) (parentEnv : Env) : INormalizedShellOptions :=
  { cwd := o.cwd
    env := normalizeEnv o.env parentEnv
    stdio := stdioFor o.nopipe o.silent
    timeout := o.timeout
    async := o.async
    nopipe := o.nopipe
    silent := o.silent
    transform := o.transform }

/-- A value returned by the blocking exec primitive: a JS string, a Buffer
(carrying its decoded text), or null (stdout not captured). -/
inductive ExecValue
  | jsNull
  | str (s : String)
  | buffer (content : String)
deriving DecidableEq, Repr

/-- JS truthiness of the exec result: null and the empty string are falsy,
every Buffer object (even empty) is truthy. -/
def ExecValue.truthy : ExecValue → Bool
  | ExecValue.jsNull => false
  | ExecValue.str s => s != ""
  | ExecValue.buffer _ => true

/-- The toString conversion applied to the exec result inside the truthy
branch (never reached for null). -/
def ExecValue.toText : ExecValue → String
  | ExecValue.jsNull => "null"
  | ExecValue.str s => s
  | ExecValue.buffer content => content

/-- Outcome of one call to the blocking exec primitive: a returned value, or
a thrown error carrying a message. -/
inductive ExecSyncOutcome
  | ok (value : ExecValue)
  | err (message : String)

/-- Modelled from the spec: transformString of the missing "./transforms"
module applies the caller-supplied output-transform function to a string. -/
def transformString (f : String → String) (s : String) : String := f s

/-- Embeds the transform ternary used by the synchronous runner: apply the
transform through transformString when one is configured, otherwise pass the
text through unchanged. -/
def applyTransform (transform : Option (String → String)) (s : String) : String :=
  match transform with
  | some f => transformString f s
  | none => s

/-- What one synchronous run produces: the returned or thrown value, plus the
chunks echoed to the stdout stream of the parent process. -/
structure SyncResult where
  result : Except ShellError (Option String)
  written : List String
deriving Repr

/-- Embeds shellSync of the pipe-based variant. The call to the exec
primitive is abstracted by its outcome: a returned value is checked for
truthiness, transformed, echoed unless silent, and returned; a falsy value
yields null; a thrown error has its message transformed and rethrown as a
ShellError. -/
def shellSync (_command : String) (options : INormalizedShellOptions)
    (outcome : ExecSyncOutcome) : SyncResult :=
  match outcome with
  | ExecSyncOutcome.ok value =>
    if value.truthy then
      let output := applyTransform options.transform value.toText
      { result := Except.ok (some output)
        written := if options.silent then [] else [output] }
    else { result := Except.ok none, written := [] }
  | ExecSyncOutcome.err message =>
    { result := Except.error (ShellError.ofMessage (applyTransform options.transform message))
      written := [] }

/-- An event delivered to the asynchronous runner by the child process or the
timer: a stdout data chunk, a stderr data chunk, the error event carrying the
toString text of the error, the close event carrying the exit code, or the
firing of the timeout callback. -/
inductive AsyncEvent
  | data (chunk : String)
  | dataErr (chunk : String)
  | errorEvt (errText : String)
  | close (exitCode : Int)
  | timeoutFired
deriving DecidableEq, Repr

/-- The state of one asynchronous invocation: the captured last stdout chunk,
the promise outcome (none while pending, settled at most once), whether kill
was called on the child, and the chunks forwarded to the stdout and stderr
streams of the parent process by the prefixing filter. -/
structure AsyncState where
  output : Option String
  result : Option (Except ShellError (Option String))
  killed : Bool
  forwardedOut : List String
  forwardedErr : List String
deriving Repr

/-- The state before any event: no output seen, promise pending, child alive,
nothing forwarded. -/
def initialAsyncState : AsyncState :=
  { output := none, result := none, killed := false
    forwardedOut := [], forwardedErr := [] }

/-- The per-invocation facts shellAsync fixes before events arrive: the
command string, whether a stdout handle exists for the capture listener,
the active line-prefix (none when absent or empty, hence falsy), and whether
a timeout was configured (a zero timeout is falsy and sets no timer). -/
structure AsyncConfig where
  command : String
  captureStdout : Bool
  prefixActive : Option String
  timeoutActive : Bool

/-- Promise settlement: resolve and reject are no-ops once the promise has
already settled. -/
def settle (s : AsyncState) (r : Except ShellError (Option String)) : AsyncState :=
  match s.result with
  | some _ => s
  | none => { s with result := some r }

/-- Embeds the event handlers registered by shellAsync (both variants share
this logic): a stdout data chunk is forwarded through the prefixing filter
when a prefix is active and overwrites the captured output when a stdout
handle exists; a stderr chunk is only forwarded; the error event rejects with
a wrapped message; the close event resolves with the captured output on exit
code zero and rejects otherwise; the timeout callback kills the child and
rejects, whether or not the promise already settled. -/
def shellAsyncStep (cfg : AsyncConfig) (s : AsyncState) : AsyncEvent → AsyncState
  | AsyncEvent.data chunk =>
    let s1 :=
      match cfg.prefixActive with
      | some p => { s with forwardedOut := s.forwardedOut ++ [prefixTransformStream p chunk] }
      | none => s
    if cfg.captureStdout then { s1 with output := some chunk } else s1
  | AsyncEvent.dataErr chunk =>
    match cfg.prefixActive with
    | some p => { s with forwardedErr := s.forwardedErr ++ [prefixTransformStream p chunk] }
    | none => s
  | AsyncEvent.errorEvt errText =>
    settle s (Except.error (ShellError.ofMessage
      ("Failed to start command: " ++ cfg.command ++ "; " ++ errText)))
  | AsyncEvent.close exitCode =>
    if exitCode = 0 then settle s (Except.ok s.output)
    else
      settle s (Except.error (ShellError.ofMessage
        ("Command failed: " ++ cfg.command ++ " with exit code " ++ toString exitCode)))
  | AsyncEvent.timeoutFired =>
    if cfg.timeoutActive then
      { settle s (Except.error (ShellError.ofMessage
          ("Command timeout: " ++ cfg.command))) with killed := true }
    else s

/-- One asynchronous invocation: fold the event handlers over the delivered
events starting from the initial state. -/
def shellAsyncRun (cfg : AsyncConfig) (events : List AsyncEvent) : AsyncState :=
  events.foldl (shellAsyncStep cfg) initialAsyncState

/-- The last stdout data payload in an event list, starting from a previous
capture: each data event overwrites the accumulator, every other event leaves
it alone. -/
def lastDataFrom (acc : Option String) (events : List AsyncEvent) : Option String :=
  events.foldl
    (fun a e =>
      match e with
      | AsyncEvent.data chunk => some chunk
      | _ => a)
    acc

/-- The most recent stdout data payload of an event list, or none when no
data event occurs in it. -/
def lastDataChunk (events : List AsyncEvent) : Option String :=
  lastDataFrom none events

/-- Caller-supplied options of the prefix-based variant (src/src/index.ts);
absent fields are none. The prefix field is renamed prefixStr because prefix
is a reserved word of the host language of this development. -/
structure IShellOptionsP where
  cwd : Option String := none
  env : Option Env := none
  stdio : Option StdioKind := none
  timeout : Option Nat := none
  prefixStr : Option String := none
  async : Bool := false

/-- Embeds the stdio default of the prefix-based entry point: the caller
disposition, or inherit when absent. -/
def normalizedStdioP (o : IShellOptionsP) : StdioKind :=
  o.stdio.getD StdioKind.inherit

/-- JS truthiness of the configured prefix: absent or empty means falsy. -/
def prefixTruthyP (o : IShellOptionsP) : Bool :=
  match o.prefixStr with
  | some p => p != ""
  | none => false

/-- Embeds the stdio expression of the spawn call in the prefix-based
shellAsync: pipe whenever the prefix is truthy, otherwise the normalized
disposition. -/
def spawnStdioP (o : IShellOptionsP) : StdioKind :=
  match o.prefixStr with
  | some p => if p = "" then normalizedStdioP o else StdioKind.pipe
  | none => normalizedStdioP o

/-- The child process exposes a stdout handle exactly when its stdout is
piped; with the string disposition of this variant that means the whole
stdio is pipe. -/
def captureStdoutP (o : IShellOptionsP) : Bool :=
  match spawnStdioP o with
  | StdioKind.pipe => true
  | _ => false

/-- The per-invocation configuration the prefix-based shellAsync derives from
its normalized options: capture exactly when stdout is piped, the prefix
active exactly when truthy, the timer set exactly when the timeout is
truthy. -/
def asyncConfigP (command : String) (o : IShellOptionsP) : AsyncConfig :=
  { command := command
    captureStdout := captureStdoutP o
    prefixActive :=
      match o.prefixStr with
      | some p => if p = "" then none else some p
      | none => none
    timeoutActive :=
      match o.timeout with
      | some t => t != 0
      | none => false }

/-- The per-invocation configuration of the pipe-based shellAsync. Modelled
from the spec for the missing stream helper: setupStdoutStderrStreams of the
missing "./transforms" module returns the raw child stdout stream, present
exactly when the normalizer chose to pipe stdout (entry 1 of the stdio
array); the capture listener attaches to that raw stream. No line prefix
exists in this variant. -/
def part0AsyncConfig (command : String) (o : INormalizedShellOptions) : AsyncConfig :=
  { command := command
    captureStdout :=
      match o.stdio.getD 1 StdioKind.ignore with
      | StdioKind.pipe => true
      | _ => false
    prefixActive := none
    timeoutActive :=
      match o.timeout with
      | some t => t != 0
      | none => false }

/-- A sample parent environment holding only PATH, used in concrete
instances. -/
def parentEnvEx : Env := fun k =>
  if k = "PATH" then some "/bin" else none

/-- The empty environment object: a caller-supplied empty env is truthy in JS
and replaces the inherited one. -/
def emptyEnv : Env := fun _ => none

/-- An uppercasing output transform (character by character over the text),
used in concrete instances about the transform behavior. -/
def upperTransform (s : String) : String := String.mk (s.data.map Char.toUpper)

/-- Normalized options carrying the uppercasing output transform, used in
concrete instances about the transform behavior. -/
def upperOpts : INormalizedShellOptions :=
  { transform := some upperTransform, async := true }

theorem jsSplit_headD (sep : Char) (l : List Char) :
    (jsSplit sep l).headD [] = l.takeWhile (fun c => c != sep) := by
  induction l with
  | nil => rfl
  | cons c cs ih =>
    by_cases hc : c = sep
    · simp [jsSplit, hc]
    · simp only [jsSplit, if_neg hc]
      cases h : jsSplit sep cs with
      | nil =>
        rw [h] at ih
        simp only [List.headD] at ih
        simp [List.takeWhile_cons, hc, ← ih]
      | cons t ts =>
        rw [h] at ih
        simp only [List.headD] at ih
        simp [List.takeWhile_cons, hc, ← ih]

theorem string_mk_data (s : String) : String.mk s.data = s := rfl

theorem message_ofMessage (s : String) :
    (ShellError.ofMessage s).message = String.mk (s.data.takeWhile (fun c => c != '\n')) := by
  by_cases hs : s = ""
  · subst hs; rfl
  · show jsFirstLine s = _
    unfold jsFirstLine
    rw [if_neg hs, jsSplit_headD]

theorem ofMessage_no_newline (s : String) (h : ∀ c ∈ s.data, c ≠ '\n') :
    (ShellError.ofMessage s).message = s := by
  rw [message_ofMessage,
    List.takeWhile_eq_self_iff.mpr (fun c hc => by simp [h c hc]),
    string_mk_data]

theorem digitChar_ne_newline (n : Nat) : Nat.digitChar n ≠ '\n' := by
  by_cases h16 : n < 16
  · interval_cases n <;> decide
  · unfold Nat.digitChar
    iterate 16 rw [if_neg (by omega)]
    decide

theorem toDigitsCore_ne_newline (fuel : Nat) :
    ∀ (n : Nat) (ds : List Char), (∀ c ∈ ds, c ≠ '\n') →
      ∀ c ∈ Nat.toDigitsCore 10 fuel n ds, c ≠ '\n' := by
  induction fuel with
  | zero => intro n ds h c hc; exact h c hc
  | succ fuel ih =>
    intro n ds h c hc
    simp only [Nat.toDigitsCore] at hc
    have hcons : ∀ x ∈ (Nat.digitChar (n % 10) :: ds), x ≠ '\n' := by
      intro x hx
      rcases List.mem_cons.mp hx with hx | hx
      · exact hx ▸ digitChar_ne_newline (n % 10)
      · exact h x hx
    split at hc
    · exact hcons c hc
    · exact ih (n / 10) (Nat.digitChar (n % 10) :: ds) hcons c hc

theorem natRepr_ne_newline (n : Nat) : ∀ c ∈ (Nat.repr n).data, c ≠ '\n' := by
  intro c hc
  have hd : (Nat.repr n).data = Nat.toDigitsCore 10 (n + 1) n [] := rfl
  rw [hd] at hc
  exact toDigitsCore_ne_newline (n + 1) n [] (by intro x hx; cases hx) c hc

theorem toStringInt_ne_newline (i : Int) : ∀ c ∈ (toString i).data, c ≠ '\n' := by
  intro c hc
  cases i with
  | ofNat m =>
    exact natRepr_ne_newline m c hc
  | negSucc m =>
    have hd : (toString (Int.negSucc m)).data = '-' :: (Nat.repr (m + 1)).data := rfl
    rw [hd] at hc
    rcases List.mem_cons.mp hc with h | h
    · subst h; decide
    · exact natRepr_ne_newline (m + 1) c h

theorem settle_output (s : AsyncState) (r : Except ShellError (Option String)) :
    (settle s r).output = s.output := by
  cases h : s.result <;> simp [settle, h]

theorem settle_killed (s : AsyncState) (r : Except ShellError (Option String)) :
    (settle s r).killed = s.killed := by
  cases h : s.result <;> simp [settle, h]

theorem settle_forwardedOut (s : AsyncState) (r : Except ShellError (Option String)) :
    (settle s r).forwardedOut = s.forwardedOut := by
  cases h : s.result <;> simp [settle, h]

theorem settle_forwardedErr (s : AsyncState) (r : Except ShellError (Option String)) :
    (settle s r).forwardedErr = s.forwardedErr := by
  cases h : s.result <;> simp [settle, h]

theorem settle_result_none (s : AsyncState) (r : Except ShellError (Option String))
    (h : s.result = none) : (settle s r).result = some r := by
  simp [settle, h]

theorem step_result_some (cfg : AsyncConfig) (s : AsyncState) (e : AsyncEvent)
    (r : Except ShellError (Option String)) (h : s.result = some r) :
    (shellAsyncStep cfg s e).result = some r := by
  cases e with
  | data chunk =>
    cases hpa : cfg.prefixActive <;> cases hcap : cfg.captureStdout <;>
      simp [shellAsyncStep, hpa, hcap, h]
  | dataErr chunk =>
    cases hpa : cfg.prefixActive <;> simp [shellAsyncStep, hpa, h]
  | errorEvt t =>
    simp [shellAsyncStep, settle, h]
  | close code =>
    by_cases h0 : code = 0 <;> simp [shellAsyncStep, settle, h0, h]
  | timeoutFired =>
    cases hta : cfg.timeoutActive <;> simp [shellAsyncStep, settle, hta, h]

theorem run_result_some (cfg : AsyncConfig) (evs : List AsyncEvent) :
    ∀ (s : AsyncState) (r : Except ShellError (Option String)), s.result = some r →
      (List.foldl (shellAsyncStep cfg) s evs).result = some r := by
  induction evs with
  | nil => intro s r h; exact h
  | cons e evs ih =>
    intro s r h
    exact ih (shellAsyncStep cfg s e) r (step_result_some cfg s e r h)

theorem step_killed (cfg : AsyncConfig) (s : AsyncState) (e : AsyncEvent)
    (h : s.killed = true) : (shellAsyncStep cfg s e).killed = true := by
  cases e with
  | data chunk =>
    cases hpa : cfg.prefixActive <;> cases hcap : cfg.captureStdout <;>
      simp [shellAsyncStep, hpa, hcap, h]
  | dataErr chunk =>
    cases hpa : cfg.prefixActive <;> simp [shellAsyncStep, hpa, h]
  | errorEvt t =>
    simp [shellAsyncStep, settle_killed, h]
  | close code =>
    by_cases h0 : code = 0 <;> simp [shellAsyncStep, settle_killed, h0, h]
  | timeoutFired =>
    cases hta : cfg.timeoutActive <;> simp [shellAsyncStep, settle_killed, hta, h]

theorem run_killed (cfg : AsyncConfig) (evs : List AsyncEvent) :
    ∀ s : AsyncState, s.killed = true →
      (List.foldl (shellAsyncStep cfg) s evs).killed = true := by
  induction evs with
  | nil => intro s h; exact h
  | cons e evs ih =>
    intro s h
    exact ih (shellAsyncStep cfg s e) (step_killed cfg s e h)

theorem step_output (cfg : AsyncConfig) (hcap : cfg.captureStdout = true)
    (s : AsyncState) (e : AsyncEvent) :
    (shellAsyncStep cfg s e).output =
      (match e with
       | AsyncEvent.data chunk => some chunk
       | _ => s.output) := by
  cases e with
  | data chunk =>
    cases hpa : cfg.prefixActive <;> simp [shellAsyncStep, hpa, hcap]
  | dataErr chunk =>
    cases hpa : cfg.prefixActive <;> simp [shellAsyncStep, hpa]
  | errorEvt t =>
    simp [shellAsyncStep, settle_output]
  | close code =>
    by_cases h0 : code = 0 <;> simp [shellAsyncStep, settle_output, h0]
  | timeoutFired =>
    cases hta : cfg.timeoutActive <;> simp [shellAsyncStep, settle_output, hta]

theorem run_output (cfg : AsyncConfig) (hcap : cfg.captureStdout = true)
    (evs : List AsyncEvent) :
    ∀ s : AsyncState,
      (List.foldl (shellAsyncStep cfg) s evs).output = lastDataFrom s.output evs := by
  induction evs with
  | nil => intro s; rfl
  | cons e evs ih =>
    intro s
    rw [List.foldl_cons, ih (shellAsyncStep cfg s e), step_output cfg hcap s e]
    cases e <;> rfl

theorem step_close_nonzero (cfg : AsyncConfig) (s : AsyncState) (code : Int)
    (h0 : code ≠ 0) (h : s.result = none) :
    (shellAsyncStep cfg s (AsyncEvent.close code)).result =
      some (Except.error (ShellError.ofMessage
        ("Command failed: " ++ cfg.command ++ " with exit code " ++ toString code))) := by
  simp [shellAsyncStep, h0, settle_result_none _ _ h]

theorem failMessage_no_newline (command : String) (code : Int)
    (hnl : ∀ c ∈ command.data, c ≠ '\n') :
    ∀ c ∈ ("Command failed: " ++ command ++ " with exit code " ++ toString code).data,
      c ≠ '\n' := by
  intro c hc
  simp only [String.data_append, List.mem_append] at hc
  rcases hc with ((hc | hc) | hc) | hc
  · exact (by decide : ∀ x ∈ ("Command failed: " : String).data, x ≠ '\n') c hc
  · exact hnl c hc
  · exact (by decide : ∀ x ∈ (" with exit code " : String).data, x ≠ '\n') c hc
  · exact toStringInt_ne_newline code c hc

theorem forwarded_prefixed_pres (cfg : AsyncConfig) (p : String)
    (hpa : cfg.prefixActive = some p) (s : AsyncState) (e : AsyncEvent)
    (hOut : ∀ x ∈ s.forwardedOut, ∃ t, x = (p ++ " ") ++ t)
    (hErr : ∀ x ∈ s.forwardedErr, ∃ t, x = (p ++ " ") ++ t) :
    (∀ x ∈ (shellAsyncStep cfg s e).forwardedOut, ∃ t, x = (p ++ " ") ++ t)
    ∧ (∀ x ∈ (shellAsyncStep cfg s e).forwardedErr, ∃ t, x = (p ++ " ") ++ t) := by
  have hnew : ∀ chunk : String, ∀ x ∈ s.forwardedOut ++ [prefixTransformStream p chunk],
      ∃ t, x = (p ++ " ") ++ t := by
    intro chunk x hx
    rcases List.mem_append.mp hx with hx | hx
    · exact hOut x hx
    · exact ⟨chunk, by rw [List.mem_singleton.mp hx]; rfl⟩
  have hnewE : ∀ chunk : String, ∀ x ∈ s.forwardedErr ++ [prefixTransformStream p chunk],
      ∃ t, x = (p ++ " ") ++ t := by
    intro chunk x hx
    rcases List.mem_append.mp hx with hx | hx
    · exact hErr x hx
    · exact ⟨chunk, by rw [List.mem_singleton.mp hx]; rfl⟩
  cases e with
  | data chunk =>
    cases hcap : cfg.captureStdout <;>
      exact ⟨by simpa [shellAsyncStep, hpa, hcap] using hnew chunk,
        by simpa [shellAsyncStep, hpa, hcap] using hErr⟩
  | dataErr chunk =>
    exact ⟨by simpa [shellAsyncStep, hpa] using hOut,
      by simpa [shellAsyncStep, hpa] using hnewE chunk⟩
  | errorEvt t =>
    exact ⟨by simpa [shellAsyncStep, settle_forwardedOut] using hOut,
      by simpa [shellAsyncStep, settle_forwardedErr] using hErr⟩
  | close code =>
    constructor
    · by_cases h0 : code = 0 <;>
        simpa [shellAsyncStep, settle_forwardedOut, h0] using hOut
    · by_cases h0 : code = 0 <;>
        simpa [shellAsyncStep, settle_forwardedErr, h0] using hErr
  | timeoutFired =>
    constructor
    · cases hta : cfg.timeoutActive <;>
        simpa [shellAsyncStep, settle_forwardedOut, hta] using hOut
    · cases hta : cfg.timeoutActive <;>
        simpa [shellAsyncStep, settle_forwardedErr, hta] using hErr

theorem run_forwarded (cfg : AsyncConfig) (p : String) (hpa : cfg.prefixActive = some p)
    (evs : List AsyncEvent) :
    ∀ s : AsyncState,
      (∀ x ∈ s.forwardedOut, ∃ t, x = (p ++ " ") ++ t) →
      (∀ x ∈ s.forwardedErr, ∃ t, x = (p ++ " ") ++ t) →
      (∀ x ∈ (List.foldl (shellAsyncStep cfg) s evs).forwardedOut, ∃ t, x = (p ++ " ") ++ t)
      ∧ (∀ x ∈ (List.foldl (shellAsyncStep cfg) s evs).forwardedErr, ∃ t, x = (p ++ " ") ++ t) := by
  induction evs with
  | nil => intro s h1 h2; exact ⟨h1, h2⟩
  | cons e evs ih =>
    intro s h1 h2
    have hp := forwarded_prefixed_pres cfg p hpa s e h1 h2
    exact ih (shellAsyncStep cfg s e) hp.1 hp.2

theorem run_data_no_capture (cfg : AsyncConfig) (hcap : cfg.captureStdout = false)
    (hpa : cfg.prefixActive = none) (chunks : List String) :
    ∀ s : AsyncState, List.foldl (shellAsyncStep cfg) s (chunks.map AsyncEvent.data) = s := by
  induction chunks with
  | nil => intro s; rfl
  | cons c cs ih =>
    intro s
    rw [List.map_cons, List.foldl_cons]
    have hstep : shellAsyncStep cfg s (AsyncEvent.data c) = s := by
      simp [shellAsyncStep, hpa, hcap]
    rw [hstep]
    exact ih s

/-- C1: when the close event carries exit code 0 and the promise is still
pending, the returned promise resolves (with an Except.ok value, never an
error) carrying the most recent stdout chunk observed before the close, or
none when no stdout data event was observed; earlier chunks are discarded.
Later events cannot change the resolved value. -/
theorem close_zero_resolves_last_chunk (cfg : AsyncConfig) (pre post : List AsyncEvent)
    (hcap : cfg.captureStdout = true)
    (hpending : (shellAsyncRun cfg pre).result = none) :
    (shellAsyncRun cfg (pre ++ AsyncEvent.close 0 :: post)).result =
      some (Except.ok (lastDataChunk pre)) := by
  have hout : (shellAsyncRun cfg pre).output = lastDataChunk pre := by
    unfold shellAsyncRun lastDataChunk
    exact run_output cfg hcap pre initialAsyncState
  have hstep : (shellAsyncStep cfg (shellAsyncRun cfg pre) (AsyncEvent.close 0)).result =
      some (Except.ok (lastDataChunk pre)) := by
    rw [← hout]
    simp [shellAsyncStep, settle_result_none _ _ hpending]
  unfold shellAsyncRun
  rw [List.foldl_append, List.foldl_cons]
  exact run_result_some cfg post _ _ hstep

/-- Witness for C1: interleaved chunks a and b, a clean close, then a stray
close event; the promise resolves with the last chunk b. -/
theorem close_zero_resolves_last_chunk_witness :
    (shellAsyncRun ⟨"ls", true, none, false⟩
        ([AsyncEvent.data "a", AsyncEvent.data "b"] ++ AsyncEvent.close 0 :: [AsyncEvent.close 1])).result =
      some (Except.ok (lastDataChunk [AsyncEvent.data "a", AsyncEvent.data "b"])) :=
  close_zero_resolves_last_chunk ⟨"ls", true, none, false⟩
    [AsyncEvent.data "a", AsyncEvent.data "b"] [AsyncEvent.close 1] rfl rfl

/-- C4: the constructed ShellError retains exactly the portion of the
supplied message up to and excluding the first newline character, and the
retained message itself holds no newline. -/
theorem shellError_message_first_line (s : String) :
    (ShellError.ofMessage s).message = String.mk (s.data.takeWhile (fun c => c != '\n'))
    ∧ ∀ c ∈ (ShellError.ofMessage s).message.data, c ≠ '\n' := by
  refine ⟨message_ofMessage s, ?_⟩
  intro c hc
  rw [message_ofMessage s] at hc
  have hp := List.mem_takeWhile_imp hc
  simpa using hp

/-- C9: in all four combinations of the nopipe and silent flags, the stdio
disposition the pipe-based entry point computes assigns inherit to stdin,
its first entry. -/
theorem normalized_stdin_always_inherit (o : IShellOptions) (parentEnv : Env) :
    (normalizeOptions o parentEnv).stdio.head? = some StdioKind.inherit := by
  cases hn : o.nopipe <;> cases hs : o.silent <;>
    simp [normalizeOptions, stdioFor, hn, hs]

/-- C10: with no prefix configured and the stdio disposition left to default
to inherit, the prefix-based variant exposes no stdout handle, so no data
listener is attached and a run closing with exit code 0 resolves with null
no matter what the command wrote. -/
theorem default_inherit_resolves_null (command : String) (chunks : List String) :
    captureStdoutP {} = false
    ∧ (shellAsyncRun (asyncConfigP command {})
        (chunks.map AsyncEvent.data ++ [AsyncEvent.close 0])).result =
        some (Except.ok none) := by
  constructor
  · rfl
  · unfold shellAsyncRun
    rw [List.foldl_append, run_data_no_capture _ rfl rfl chunks initialAsyncState]
    rfl

/-- C6: with a timeout configured, when the timeout callback fires while the
promise is still pending, the child is killed and the promise rejects with
the timeout message; the kill mark and the settled outcome survive every
later event, and in general a settled promise is never changed by any
subsequent event. -/
theorem timeout_kills_and_rejects (cfg : AsyncConfig) (pre post : List AsyncEvent)
    (hto : cfg.timeoutActive = true)
    (hpending : (shellAsyncRun cfg pre).result = none) :
    ((shellAsyncRun cfg (pre ++ AsyncEvent.timeoutFired :: post)).killed = true
      ∧ (shellAsyncRun cfg (pre ++ AsyncEvent.timeoutFired :: post)).result =
          some (Except.error (ShellError.ofMessage ("Command timeout: " ++ cfg.command))))
    ∧ ∀ (s : AsyncState) (evs : List AsyncEvent) (r : Except ShellError (Option String)),
        s.result = some r → (List.foldl (shellAsyncStep cfg) s evs).result = some r := by
  constructor
  · have hstep1 : (shellAsyncStep cfg (shellAsyncRun cfg pre) AsyncEvent.timeoutFired).killed = true := by
      simp [shellAsyncStep, hto]
    have hstep2 : (shellAsyncStep cfg (shellAsyncRun cfg pre) AsyncEvent.timeoutFired).result =
        some (Except.error (ShellError.ofMessage ("Command timeout: " ++ cfg.command))) := by
      simp [shellAsyncStep, hto, settle_result_none _ _ hpending]
    constructor
    · unfold shellAsyncRun
      rw [List.foldl_append, List.foldl_cons]
      exact run_killed cfg post _ hstep1
    · unfold shellAsyncRun
      rw [List.foldl_append, List.foldl_cons]
      exact run_result_some cfg post _ _ hstep2
  · intro s evs r h
    exact run_result_some cfg evs s r h

/-- Witness for C6: the timer fires first, the command completes afterwards
with exit code 0, yet the run stays killed and rejected with the timeout
message; a separately settled state also survives a later close event. -/
theorem timeout_kills_and_rejects_witness :
    ((shellAsyncRun ⟨"sleep 5", true, none, true⟩ [AsyncEvent.timeoutFired, AsyncEvent.close 0]).killed = true
      ∧ (shellAsyncRun ⟨"sleep 5", true, none, true⟩ [AsyncEvent.timeoutFired, AsyncEvent.close 0]).result =
          some (Except.error (ShellError.ofMessage ("Command timeout: " ++ "sleep 5"))))
    ∧ (List.foldl (shellAsyncStep ⟨"sleep 5", true, none, true⟩)
          { output := none, result := some (Except.ok none), killed := false
            forwardedOut := [], forwardedErr := [] }
          [AsyncEvent.close 9]).result = some (Except.ok none) :=
  ⟨(timeout_kills_and_rejects ⟨"sleep 5", true, none, true⟩ [] [AsyncEvent.close 0] rfl rfl).1,
    (timeout_kills_and_rejects ⟨"sleep 5", true, none, true⟩ [] [AsyncEvent.close 0] rfl rfl).2
      _ [AsyncEvent.close 9] _ rfl⟩

/-- C7: when a nonempty line-prefix is configured for an asynchronous run of
the prefix-based variant, every chunk forwarded to the stdout or stderr
stream of the parent process begins with the prefix followed by a single
space, each chunk transformed independently. -/
theorem prefixed_chunks_start_with_prefix (o : IShellOptionsP) (command p : String)
    (hp : o.prefixStr = some p) (hne : p ≠ "") (evs : List AsyncEvent) :
    ∀ x ∈ (shellAsyncRun (asyncConfigP command o) evs).forwardedOut ++
          (shellAsyncRun (asyncConfigP command o) evs).forwardedErr,
      ∃ t, x = (p ++ " ") ++ t := by
  have hpa : (asyncConfigP command o).prefixActive = some p := by
    simp [asyncConfigP, hp, hne]
  have hrun := run_forwarded (asyncConfigP command o) p hpa evs initialAsyncState
    (by intro x hx; cases hx) (by intro x hx; cases hx)
  intro x hx
  rcases List.mem_append.mp hx with hx | hx
  · exact hrun.1 x hx
  · exact hrun.2 x hx

/-- Witness for C7: with prefix web, a stdout chunk x and a stderr chunk y
are forwarded as web-space-x, identified as starting with the prefix and a
space. -/
theorem prefixed_chunks_start_with_prefix_witness :
    ∃ t, "web x" = ("web" ++ " ") ++ t :=
  prefixed_chunks_start_with_prefix { prefixStr := some "web" } "c" "web" rfl
    (by decide) [AsyncEvent.data "x", AsyncEvent.dataErr "y"] "web x"
    (by decide)

/-- Counterexample for C2: a command holding a newline exits with code 1;
the rejection message is truncated at the newline by the ShellError
constructor, so it contains neither the original command string nor the
exit code. -/
theorem exit_message_newline_counterexample :
    (shellAsyncRun ⟨"a\nb", true, none, false⟩ [AsyncEvent.close 1]).result =
        some (Except.error (ShellError.ofMessage "Command failed: a\nb with exit code 1"))
    ∧ (ShellError.ofMessage "Command failed: a\nb with exit code 1").message = "Command failed: a"
    ∧ ¬ ("a\nb".data <:+: "Command failed: a".data)
    ∧ ¬ ((toString (1 : Int)).data <:+: "Command failed: a".data) := by
  refine ⟨rfl, by decide, by decide, by decide⟩

/-- C2 amended: for a newline-free command closing with a nonzero exit code
while the promise is pending, the asynchronous runner rejects with a
ShellError whose message contains both the exit code and the command; the
synchronous runner instead rethrows a ShellError carrying the first line of
the (optionally transformed) message raised by the underlying primitive. -/
theorem nonzero_exit_message_contains (cfg : AsyncConfig) (code : Int)
    (pre : List AsyncEvent) (o : INormalizedShellOptions) (m : String)
    (hnl : ∀ c ∈ cfg.command.data, c ≠ '\n') (hc : code ≠ 0)
    (hpending : (shellAsyncRun cfg pre).result = none) :
    (∃ e : ShellError,
      (shellAsyncRun cfg (pre ++ [AsyncEvent.close code])).result = some (Except.error e)
      ∧ cfg.command.data <:+: e.message.data
      ∧ (toString code).data <:+: e.message.data)
    ∧ (shellSync cfg.command o (ExecSyncOutcome.err m)).result =
        Except.error (ShellError.ofMessage (applyTransform o.transform m)) := by
  constructor
  · refine ⟨ShellError.ofMessage
      ("Command failed: " ++ cfg.command ++ " with exit code " ++ toString code), ?_, ?_, ?_⟩
    · unfold shellAsyncRun
      rw [List.foldl_append, List.foldl_cons, List.foldl_nil]
      exact step_close_nonzero cfg _ code hc hpending
    · rw [ofMessage_no_newline _ (failMessage_no_newline cfg.command code hnl)]
      refine ⟨("Command failed: " : String).data, (" with exit code " ++ toString code).data, ?_⟩
      simp [String.data_append, List.append_assoc]
    · rw [ofMessage_no_newline _ (failMessage_no_newline cfg.command code hnl)]
      refine ⟨("Command failed: " ++ cfg.command ++ " with exit code ").data, [], ?_⟩
      simp [String.data_append, List.append_assoc]
  · rfl

/-- Witness for C2 amended: command x, exit code 1, a fresh run; the
rejection message contains both, and a thrown primitive message is rethrown
first-line only. -/
theorem nonzero_exit_message_contains_witness :
    (∃ e : ShellError,
      (shellAsyncRun ⟨"x", true, none, false⟩ ([] ++ [AsyncEvent.close 1])).result =
          some (Except.error e)
      ∧ "x".data <:+: e.message.data
      ∧ (toString (1 : Int)).data <:+: e.message.data)
    ∧ (shellSync "x" {} (ExecSyncOutcome.err "boom")).result =
        Except.error (ShellError.ofMessage "boom") :=
  nonzero_exit_message_contains ⟨"x", true, none, false⟩ 1 [] {} "boom"
    (by decide) (by decide) rfl

/-- Counterexample for C3: a caller-supplied empty environment replaces the
inherited one entirely, so a parent variable the claim promises to survive
is gone from the normalized environment. -/
theorem env_merge_counterexample :
    normalizeEnv (some emptyEnv) parentEnvEx "PATH" = none
    ∧ claimedMergedEnv (some emptyEnv) parentEnvEx "PATH" = some "/bin" :=
  ⟨rfl, rfl⟩

/-- C3 amended: a caller-supplied environment replaces the inherited one
entirely (outside the FORCE_COLOR key the normalized environment agrees with
the caller environment and ignores the parent), the parent environment is
used only when no caller environment is supplied, and the FORCE_COLOR key is
present in every normalized environment. -/
theorem env_caller_replaces_inherited (parentEnv e : Env) (k : String)
    (hk : k ≠ "FORCE_COLOR") :
    normalizeEnv (some e) parentEnv k = e k
    ∧ normalizeEnv none parentEnv k = parentEnv k
    ∧ (∃ v, normalizeEnv (some e) parentEnv "FORCE_COLOR" = some v)
    ∧ (∃ v, normalizeEnv none parentEnv "FORCE_COLOR" = some v) := by
  refine ⟨?_, ?_, ?_, ?_⟩
  · cases hek : e k with
    | some v => simp [normalizeEnv, objSpread, hek]
    | none => simp [normalizeEnv, objSpread, hek, forceColorEnv, hk]
  · cases hpk : parentEnv k with
    | some v => simp [normalizeEnv, objSpread, hpk]
    | none => simp [normalizeEnv, objSpread, hpk, forceColorEnv, hk]
  · cases hef : e "FORCE_COLOR" with
    | some v => exact ⟨v, by simp [normalizeEnv, objSpread, hef]⟩
    | none => exact ⟨"1", by simp [normalizeEnv, objSpread, hef, forceColorEnv]⟩
  · cases hpf : parentEnv "FORCE_COLOR" with
    | some v => exact ⟨v, by simp [normalizeEnv, objSpread, hpf]⟩
    | none => exact ⟨"1", by simp [normalizeEnv, objSpread, hpf, forceColorEnv]⟩

/-- Witness for C3 amended at the PATH key with a concrete parent
environment and the empty caller environment. -/
theorem env_caller_replaces_inherited_witness :
    normalizeEnv (some emptyEnv) parentEnvEx "PATH" = emptyEnv "PATH"
    ∧ normalizeEnv none parentEnvEx "PATH" = parentEnvEx "PATH"
    ∧ (∃ v, normalizeEnv (some emptyEnv) parentEnvEx "FORCE_COLOR" = some v)
    ∧ (∃ v, normalizeEnv none parentEnvEx "FORCE_COLOR" = some v) :=
  env_caller_replaces_inherited parentEnvEx emptyEnv "PATH" (by decide)

/-- Counterexample for C5: with an uppercasing transform configured, a
failing asynchronous run rejects with the raw lowercase message; the
transform is not applied on the asynchronous path. -/
theorem transform_async_not_applied_counterexample :
    upperOpts.transform = some upperTransform
    ∧ (shellAsyncRun (part0AsyncConfig "x" upperOpts) [AsyncEvent.close 1]).result =
        some (Except.error (ShellError.ofMessage "Command failed: x with exit code 1"))
    ∧ transformString upperTransform "Command failed: x with exit code 1" ≠
        "Command failed: x with exit code 1" := by
  refine ⟨rfl, rfl, by decide⟩

/-- C5 amended: the configured transform is applied to the success payload
and to the error message of the synchronous runner, while the asynchronous
runner applies no transform: its rejection message is the raw construction
whatever transform the options carry. -/
theorem transform_applied_sync_only (o o2 : INormalizedShellOptions)
    (f : String → String) (hf : o.transform = some f)
    (content m command : String) (pre : List AsyncEvent) (code : Int)
    (hc : code ≠ 0)
    (hpending : (shellAsyncRun (part0AsyncConfig command o2) pre).result = none) :
    (shellSync command o (ExecSyncOutcome.ok (ExecValue.buffer content))).result =
        Except.ok (some (transformString f content))
    ∧ (shellSync command o (ExecSyncOutcome.err m)).result =
        Except.error (ShellError.ofMessage (transformString f m))
    ∧ (shellAsyncRun (part0AsyncConfig command o2) (pre ++ [AsyncEvent.close code])).result =
        some (Except.error (ShellError.ofMessage
          ("Command failed: " ++ command ++ " with exit code " ++ toString code))) := by
  refine ⟨?_, ?_, ?_⟩
  · simp [shellSync, ExecValue.truthy, ExecValue.toText, applyTransform, hf]
  · simp [shellSync, applyTransform, hf]
  · unfold shellAsyncRun
    rw [List.foldl_append, List.foldl_cons, List.foldl_nil]
    exact step_close_nonzero _ _ code hc hpending

/-- Witness for C5 amended with the uppercasing transform: sync payload and
sync error uppercased, async rejection raw. -/
theorem transform_applied_sync_only_witness :
    (shellSync "x" upperOpts (ExecSyncOutcome.ok (ExecValue.buffer "ab"))).result =
        Except.ok (some (transformString upperTransform "ab"))
    ∧ (shellSync "x" upperOpts (ExecSyncOutcome.err "boom")).result =
        Except.error (ShellError.ofMessage (transformString upperTransform "boom"))
    ∧ (shellAsyncRun (part0AsyncConfig "x" upperOpts) ([] ++ [AsyncEvent.close 1])).result =
        some (Except.error (ShellError.ofMessage
          ("Command failed: " ++ "x" ++ " with exit code " ++ toString (1 : Int)))) :=
  transform_applied_sync_only upperOpts upperOpts upperTransform rfl "ab" "boom" "x" []
    1 (by decide) rfl

/-- Counterexample for C8: an empty Buffer is a truthy JS value, so a
command that produced no output makes the synchronous runner return the
empty text, not null. -/
theorem sync_empty_buffer_counterexample :
    (ExecValue.buffer "").truthy = true
    ∧ (shellSync "cmd" {} (ExecSyncOutcome.ok (ExecValue.buffer ""))).result = Except.ok (some "")
    ∧ (shellSync "cmd" {} (ExecSyncOutcome.ok (ExecValue.buffer ""))).result ≠ Except.ok none := by
  refine ⟨rfl, rfl, ?_⟩
  intro h
  simp [shellSync, ExecValue.truthy, applyTransform] at h

/-- C8 amended: the synchronous runner returns null exactly when the value
returned by the primitive is falsy (null or the empty string); any truthy
value, an empty Buffer included, yields the captured (optionally
transformed) text. -/
theorem sync_null_iff_falsy (command : String) (o : INormalizedShellOptions) (v : ExecValue) :
    ((shellSync command o (ExecSyncOutcome.ok v)).result = Except.ok none ↔ v.truthy = false)
    ∧ (v.truthy = true →
        (shellSync command o (ExecSyncOutcome.ok v)).result =
          Except.ok (some (applyTransform o.transform v.toText))) := by
  constructor
  · cases htv : v.truthy <;> simp [shellSync, htv]
  · intro htv
    simp [shellSync, htv]

/-- Witness for C8 amended: the string value hi is truthy and returned as
captured text. -/
theorem sync_null_iff_falsy_witness :
    (ExecValue.str "hi").truthy = true
    ∧ (shellSync "cmd" {} (ExecSyncOutcome.ok (ExecValue.str "hi"))).result =
        Except.ok (some (applyTransform ({} : INormalizedShellOptions).transform
          (ExecValue.str "hi").toText)) :=
  ⟨by decide, (sync_null_iff_falsy "cmd" {} (ExecValue.str "hi")).2 (by decide)⟩
